import Mathlib

/-!
A verification development for the recursive FRI verifier
(`src/plonky2/src/fri/recursive_verifier.rs`).

The circuit-building code is embedded shallowly:

* The base field `F` is `ZMod p` for a modulus parameter `p` (the code is
  generic over a 64-bit `RichField`).  Extension-field targets
  (`ExtensionTarget<D>`) are modelled as values of the same field: every
  operation the verifier applies to them (`mul`, `sub`, `div_add`, `exp`,
  Horner reduction) is uniform ring/field algebra, and the extension degree
  `D` enters the verifier only through the `D > 1` assertion, which we keep
  as an explicit parameter.
* A `Target` is modelled by the field value it carries under an assignment;
  building a constraint is modelled by emitting an `Event` describing the
  constraint.  Each circuit-building function returns the list of events it
  emits (in emission order) together with its outputs; native (construction
  time) assertions are modelled with `Except`/`Option String` aborts.
* External collaborators that live outside `src/` (the Fiat–Shamir
  challenger, the hash, the gates' cost accounting) are parameters,
  following the spec's description of them as black-box capabilities.
-/

namespace FriRec

/-- Embeds `FriConfig` (declared in `fri/mod.rs`; the fields read by the verifier). -/
structure FriConfig where
  rate_bits : ℕ
  cap_height : ℕ
  proof_of_work_bits : ℕ
  num_query_rounds : ℕ
  deriving Repr, DecidableEq

/-- Modelled from the spec: `FriConfig::rate` — the codeword rate, the
reciprocal of the blow-up factor `2^rate_bits` (exact rational in place of
the code's `f64`). -/
def FriConfig.rate (config : FriConfig) : ℚ :=
  1 / 2 ^ config.rate_bits

/-- Embeds `FriParams` (declared in `fri/mod.rs`; the fields read by the verifier). -/
structure FriParams where
  config : FriConfig
  is_hiding : Bool
  degree_bits : ℕ
  reduction_arity_bits : List ℕ
  deriving Repr, DecidableEq

/-- Modelled from the spec: `FriParams::final_poly_len` — the final
polynomial's length, fixed by the degree after all reductions
(`2^(degree_bits - sum reduction_arity_bits)`). -/
def FriParams.final_poly_len (params : FriParams) : ℕ :=
  2 ^ (params.degree_bits - params.reduction_arity_bits.sum)

/-- Modelled from the spec: `FriParams::lde_size` — the size of the LDE
domain, `2^(degree_bits + rate_bits)`. -/
def FriParams.lde_size (params : FriParams) : ℕ :=
  2 ^ (params.degree_bits + params.config.rate_bits)

/-- Modelled from the spec: `FriParams::max_arity_bits` — the largest
reduction arity, when any reduction round is configured. -/
def FriParams.max_arity_bits (params : FriParams) : Option ℕ :=
  params.reduction_arity_bits.max?

/-- Little-endian value of a bit list (the semantics of the builder's
`le_sum` on a list of `BoolTarget`s). -/
def leSumNat : List Bool → ℕ
  | [] => 0
  | b :: bs => (if b then 1 else 0) + 2 * leSumNat bs

/-- The `k` low bits of a natural number, little-endian. -/
def natToBitsLE : ℕ → ℕ → List Bool
  | 0, _ => []
  | k + 1, n => decide (n % 2 = 1) :: natToBitsLE k (n / 2)

/-- Bit-reversal of an index with respect to `k` bits. -/
def bitRev (k i : ℕ) : ℕ :=
  leSumNat ((natToBitsLE k i).reverse)

/-- Modelled from the spec: `reverse_index_bits_in_place` (from
`plonky2_util`) — permute a list of length `2^k` by bit-reversing indices. -/
def reverseIndexBits {α : Type} (k : ℕ) (l : List α) (dflt : α) : List α :=
  (List.range (2 ^ k)).map (fun i => l.getD (bitRev k i) dflt)

/-- Modelled from the spec: the builder's `low_bits` decomposition — the
value is split (by the witness generator, canonically) into `total_bits`
little-endian bits and the low `num_low_bits` of them are returned. -/
def lowBits {p : ℕ} (x : ZMod p) (num_low_bits total_bits : ℕ) : List Bool :=
  (natToBitsLE total_bits x.val).take num_low_bits

/-- Modelled from the spec: number of bits of the field order
(`F::order().bits()`), i.e. `⌊log2 p⌋ + 1` for the nonzero order `p`. -/
def orderBits (p : ℕ) : ℕ :=
  Nat.log2 p + 1

/-- Merkle proof target: the sibling digests along a path. -/
structure MerkleProofT (Dg : Type) where
  siblings : List Dg
  deriving Repr, DecidableEq

/-- Embeds `FriInitialTreeProofTarget`: per committed oracle, the leaf openings at
the query index and the Merkle path for them. -/
structure FriInitialTreeProofT (p : ℕ) (Dg : Type) where
  evals_proofs : List (List (ZMod p) × MerkleProofT Dg)
  deriving DecidableEq

/-- Modelled from the spec: salt width of a hiding (blinded) leaf
(`SALT_SIZE`); a salted layout carries this many trailing salt elements. -/
def SALT_SIZE : ℕ := 4

/-- Modelled from the spec: `FriInitialTreeProofTarget::unsalted_eval` —
fetch one polynomial's leaf evaluation from the oracle's leaf vector,
dropping the trailing salt elements when the leaf layout is salted.
(Out-of-range accesses, which panic in the source, are totalised with
defaults.) -/
def FriInitialTreeProofT.unsalted_eval {p : ℕ} {Dg : Type}
    (proof : FriInitialTreeProofT p Dg)
    (oracle_index polynomial_index : ℕ) (salted : Bool) : ZMod p :=
  let evals := (proof.evals_proofs.getD oracle_index ([], ⟨[]⟩)).1
  let evals := if salted then evals.take (evals.length - SALT_SIZE) else evals
  evals.getD polynomial_index 0

/-- One FRI query step: the claimed coset evaluations and their Merkle
proof (extension values modelled in the base field, see the header). -/
structure FriQueryStepT (p : ℕ) (Dg : Type) where
  evals : List (ZMod p)
  merkle_proof : MerkleProofT Dg
  deriving DecidableEq

/-- One FRI query round: the initial-tree proof plus one step per
reduction round. -/
structure FriQueryRoundT (p : ℕ) (Dg : Type) where
  initial_trees_proof : FriInitialTreeProofT p Dg
  steps : List (FriQueryStepT p Dg)
  deriving DecidableEq

/-- Embeds `FriProofTarget`: commit-phase caps, query-round proofs, final
polynomial coefficients, and the proof-of-work witness. -/
structure FriProofT (p : ℕ) (Dg : Type) where
  commit_phase_merkle_caps : List (List Dg)
  query_round_proofs : List (FriQueryRoundT p Dg)
  final_poly : List (ZMod p)
  pow_witness : ZMod p
  deriving DecidableEq

/-- Embeds `FriOracleInfo`: whether a committed oracle is blinded. -/
structure FriOracleInfo where
  num_polys : ℕ
  blinding : Bool
  deriving Repr, DecidableEq

/-- Embeds `FriPolynomialInfo`: where a polynomial lives among the oracles. -/
structure FriPolynomialInfo where
  oracle_index : ℕ
  polynomial_index : ℕ
  deriving Repr, DecidableEq

/-- Embeds `FriBatchInfoTarget`: polynomials opened at one point. -/
structure FriBatchInfoT (p : ℕ) where
  point : ZMod p
  polynomials : List FriPolynomialInfo
  deriving DecidableEq

/-- Embeds `FriInstanceInfoTarget`: the oracles and the opening batches. -/
structure FriInstanceInfoT (p : ℕ) where
  oracles : List FriOracleInfo
  batches : List (FriBatchInfoT p)
  deriving DecidableEq

/-- Modelled from the spec: one batch of claimed openings (the values of
each polynomial of the batch at the batch's point). -/
structure FriOpeningBatchT (p : ℕ) where
  values : List (ZMod p)
  deriving DecidableEq

/-- Modelled from the spec: the claimed openings, batch by batch. -/
structure FriOpeningsT (p : ℕ) where
  batches : List (FriOpeningBatchT p)
  deriving DecidableEq

/-- Modelled from the spec: the outer argument's opening set, consumed here
only through `to_fri_openings` and by transcript observation. -/
structure OpeningSetT (p : ℕ) where
  to_fri_openings : FriOpeningsT p
  deriving DecidableEq

/-- Modelled from the spec: the Fiat–Shamir challenger capability —
order-sensitive observations and deterministic challenge draws over an
abstract transcript state `σ`. -/
structure Challenger (p : ℕ) (Dg σ : Type) where
  observeOpeningSet : OpeningSetT p → σ → σ
  observeCap : List Dg → σ → σ
  observeExtensionElements : List (ZMod p) → σ → σ
  getChallenge : σ → ZMod p × σ
  getExtensionChallenge : σ → ZMod p × σ
  getHash : σ → List (ZMod p) × σ

/-- Modelled from the spec: field-specific and hash capabilities used by
the verifier (`primitive_root_of_unity`, `coset_shift`, `hash_n_to_m`
restricted to one output). -/
structure FieldOps (p : ℕ) where
  primitive_root_of_unity : ℕ → ZMod p
  coset_shift : ZMod p
  hash_n_to_one : List (ZMod p) → ZMod p

/-- Modelled from the spec: a gate's capacity requirements. -/
structure GateCosts where
  num_wires : ℕ
  num_routed_wires : ℕ
  deriving Repr, DecidableEq

/-- Modelled from the spec: the capability interface of the gates whose
capacity the recursion-config check interrogates. -/
structure GateLibrary where
  random_access_from_config : ℕ → GateCosts
  low_degree_interpolation : ℕ → GateCosts
  high_degree_interpolation : ℕ → GateCosts

/-- Embeds `CircuitConfig` (from `plonk/circuit_data.rs`; the fields this file
reads). -/
structure CircuitConfig where
  num_wires : ℕ
  num_routed_wires : ℕ
  max_quotient_degree_factor : ℕ
  fri_config : FriConfig
  deriving Repr, DecidableEq

/-- An event emitted while building the verifier circuit: a transcript
interaction or an emitted constraint, in emission order. -/
inductive Event (p : ℕ) (Dg : Type) where
  | observeOpeningSet : Event p Dg
  | getExtChallenge (v : ZMod p) : Event p Dg
  | observeCap (i : ℕ) : Event p Dg
  | observeFinalPoly (coeffs : List (ZMod p)) : Event p Dg
  | getHash (digest : List (ZMod p)) : Event p Dg
  | leadingZeros (x : ZMod p) (bits : ℕ) : Event p Dg
  | getChallenge (v : ZMod p) : Event p Dg
  | merkleInitial (i : ℕ) (evals : List (ZMod p)) (bits : List Bool)
      (capIdx : ℕ) (cap : List Dg) (siblings : List Dg) : Event p Dg
  | merkleRound (i : ℕ) (evals : List (ZMod p)) (bits : List Bool)
      (capIdx : ℕ) (cap : List Dg) (siblings : List Dg) : Event p Dg
  | randomAccess (idx : ℕ) (claimed : ZMod p) (vals : List (ZMod p)) : Event p Dg
  | connectExt (a b : ZMod p) : Event p Dg
  deriving DecidableEq

/-- Modelled from the spec: the high-degree interpolation gate strategy
(`HighDegreeInterpolationGate`) — evaluate at `beta` the Lagrange
interpolant of the evaluations `evals` over the coset
`(cosetStart * g^j)_(j < n)`, in closed finite-sum form. -/
def highDegreeInterpolateCoset {p : ℕ} (g cosetStart : ZMod p) (n : ℕ)
    (evals : List (ZMod p)) (beta : ZMod p) : ZMod p :=
  ∑ j ∈ Finset.range n, evals.getD j 0 *
    ∏ m ∈ (Finset.range n).erase j,
      (beta - cosetStart * g ^ m) * (cosetStart * g ^ j - cosetStart * g ^ m)⁻¹

/-- Modelled from the spec: the low-degree interpolation gate strategy
(`LowDegreeInterpolationGate`) — the same interpolant evaluated by
iterative accumulation over the coset points (bounded per-step cost). -/
def lowDegreeInterpolateCoset {p : ℕ} (g cosetStart : ZMod p) (n : ℕ)
    (evals : List (ZMod p)) (beta : ZMod p) : ZMod p :=
  (List.range n).foldl
    (fun acc j => acc + evals.getD j 0 *
      (List.range n).foldl
        (fun q m => if m = j then q
          else q * ((beta - cosetStart * g ^ m) * (cosetStart * g ^ j - cosetStart * g ^ m)⁻¹))
        1)
    0

/-- Embeds `compute_evaluation` (lines 27–67): fold a coset's evaluations into the
next round's value at `beta`, reordering the evaluations by bit reversal,
computing the coset start `x * g_inv^(bit-reversed within-coset index)`,
and interpolating with the gate selected by the arity threshold. -/
def computeEvaluation {p : ℕ} (cfg : CircuitConfig) (ops : FieldOps p)
    (x : ZMod p) (x_index_within_coset_bits : List Bool) (arity_bits : ℕ)
    (evals : List (ZMod p)) (beta : ZMod p) : ZMod p :=
  let arity := 2 ^ arity_bits
  let g := ops.primitive_root_of_unity arity_bits
  let g_inv := g ^ (arity - 1)
  let evals' := reverseIndexBits arity_bits evals 0
  let start := g_inv ^ leSumNat x_index_within_coset_bits.reverse
  let coset_start := start * x
  if arity > cfg.max_quotient_degree_factor then
    lowDegreeInterpolateCoset g coset_start arity evals' beta
  else
    highDegreeInterpolateCoset g coset_start arity evals' beta

/-- Embeds `check_recursion_config` (lines 72–104): compute the minimum wire and
routed-wire counts from the random-access gate (at
`max(max_fri_arity_bits, cap_height)`) and the interpolation gate selected
by the arity threshold, and abort with a capacity message naming the
minimum unless the configuration meets both. -/
def checkRecursionConfig (gates : GateLibrary) (cfg : CircuitConfig)
    (max_fri_arity_bits : ℕ) : Except String Unit :=
  let random_access :=
    gates.random_access_from_config (max max_fri_arity_bits cfg.fri_config.cap_height)
  let interp :=
    if 2 ^ max_fri_arity_bits > cfg.max_quotient_degree_factor then
      gates.low_degree_interpolation max_fri_arity_bits
    else
      gates.high_degree_interpolation max_fri_arity_bits
  let min_wires := max random_access.num_wires interp.num_wires
  let min_routed_wires := max random_access.num_routed_wires interp.num_routed_wires
  if cfg.num_wires ≥ min_wires then
    if cfg.num_routed_wires ≥ min_routed_wires then
      Except.ok ()
    else
      Except.error ("To efficiently perform FRI checks with an arity of 2^"
        ++ toString max_fri_arity_bits ++ ", at least "
        ++ toString min_routed_wires
        ++ " routed wires are needed. Consider reducing arity.")
  else
    Except.error ("To efficiently perform FRI checks with an arity of 2^"
      ++ toString max_fri_arity_bits ++ ", at least " ++ toString min_wires
      ++ " wires are needed. Consider reducing arity.")

/-- Embeds `assert_noncanonical_indices_ok` (lines 414–420): a native assertion
comparing the probability of an ambiguous (non-canonical) index encoding,
`(2^64 - p)/p`, against `rate * 1e-5` (exact rationals in place of the
code's `f64`). -/
def assertNoncanonicalIndicesOk (p : ℕ) (config : FriConfig) : Except String Unit :=
  let num_ambiguous_elems : ℚ := ((2 ^ 64 - 1 : ℕ) : ℚ) - (p : ℚ) + 1
  let query_error : ℚ := config.rate
  let p_ambiguous : ℚ := num_ambiguous_elems / (p : ℚ)
  if p_ambiguous < query_error * (1 / 100000) then
    Except.ok ()
  else
    Except.error ("A non-negligible portion of field elements are in the range that permits non-canonical encodings. Need to do more analysis or enforce canonical encodings.")

/-- Embeds `fri_verify_proof_of_work` (lines 106–120): materialise the transcript
digest, hash it together with `pow_witness` down to one element, and emit a
leading-zeros range constraint with threshold
`proof_of_work_bits + (64 - bits of the field order)`. -/
def friVerifyProofOfWork {p : ℕ} {Dg σ : Type} (ops : FieldOps p)
    (chal : Challenger p Dg σ) (proof : FriProofT p Dg) (config : FriConfig)
    (s : σ) : List (Event p Dg) × σ :=
  let (digest, s1) := chal.getHash s
  let inputs := digest ++ [proof.pow_witness]
  let hash := ops.hash_n_to_one inputs
  ([Event.getHash digest,
    Event.leadingZeros hash (config.proof_of_work_bits + (64 - orderBits p))], s1)

/-- Modelled from the spec: the running Horner accumulator
(`ReducingFactorTarget`) — a base and a count of the powers consumed since
the last shift. -/
structure ReducingFactorT (p : ℕ) where
  base : ZMod p
  count : ℕ
  deriving DecidableEq

/-- Modelled from the spec: `ReducingFactorTarget::reduce` — Horner
reduction `v_0 + base*v_1 + base^2*v_2 + ...`, advancing the count by the
number of terms. -/
def ReducingFactorT.reduce {p : ℕ} (rf : ReducingFactorT p)
    (terms : List (ZMod p)) : ZMod p × ReducingFactorT p :=
  (terms.foldr (fun t acc => acc * rf.base + t) 0,
   ⟨rf.base, rf.count + terms.length⟩)

/-- Modelled from the spec: `ReducingFactorTarget::shift` — multiply by
`base^count` and reset the count. -/
def ReducingFactorT.shift {p : ℕ} (rf : ReducingFactorT p) (x : ZMod p) :
    ZMod p × ReducingFactorT p :=
  (x * rf.base ^ rf.count, ⟨rf.base, 0⟩)

/-- The leaf evaluations fetched for one opening batch in
`fri_combine_initial` (lines 269–276): for each polynomial of the batch,
the unsalted leaf value, with the salted layout selected by
`params.hiding && oracle.blinding`. -/
def batchEvals {p : ℕ} {Dg : Type} (inst : FriInstanceInfoT p)
    (proof : FriInitialTreeProofT p Dg) (params : FriParams)
    (batch : FriBatchInfoT p) : List (ZMod p) :=
  batch.polynomials.map (fun pinfo =>
    let poly_blinding := (inst.oracles.getD pinfo.oracle_index ⟨0, false⟩).blinding
    let salted := params.is_hiding && poly_blinding
    proof.unsalted_eval pinfo.oracle_index pinfo.polynomial_index salted)

/-- The loop body of `fri_combine_initial` (lines 263–282), for one opening
batch paired with its precomputed reduced opening: fetch the leaf
evaluations, Horner-reduce them, then shift the accumulator and add the
quotient by `(subgroup_x - point)`. -/
def combineBatchStep {p : ℕ} {Dg : Type} (inst : FriInstanceInfoT p)
    (proof : FriInitialTreeProofT p Dg) (subgroup_x : ZMod p)
    (params : FriParams) (acc : ZMod p × ReducingFactorT p)
    (br : FriBatchInfoT p × ZMod p) : ZMod p × ReducingFactorT p :=
  let (sum0, alpha0) := acc
  let (batch, reduced_openings) := br
  let evals := batchEvals inst proof params batch
  let (reduced_evals, alpha1) := alpha0.reduce evals
  let numerator := reduced_evals - reduced_openings
  let denominator := subgroup_x - batch.point
  let (sum1, alpha2) := alpha1.shift sum0
  (sum1 + numerator * denominator⁻¹, alpha2)

/-- Embeds `fri_combine_initial` (lines 243–285): assert `D > 1` and the
`degree_log` coherence, then fold every opening batch (zipped with its
precomputed reduced opening) through the shift-then-divide-add accumulator
starting from zero with a fresh running factor on `alpha`. -/
def friCombineInitial {p : ℕ} {Dg : Type} (D : ℕ) (inst : FriInstanceInfoT p)
    (proof : FriInitialTreeProofT p Dg) (alpha subgroup_x : ZMod p)
    (precomputed : List (ZMod p)) (params : FriParams) :
    Except String (ZMod p) :=
  if ¬ D > 1 then
    Except.error ("Not implemented for D=1.")
  else
    let degree_log := params.degree_bits
    if degree_log ≠ params.config.cap_height
        + (proof.evals_proofs.getD 0 ([], ⟨[]⟩)).2.siblings.length
        - params.config.rate_bits then
      Except.error ("debug assert failed: degree_log incoherent with proof shape")
    else
      Except.ok
        (((inst.batches.zip precomputed).foldl
          (combineBatchStep inst proof subgroup_x params)
          (0, ⟨alpha, 0⟩)).1)

/-- Embeds `fri_verify_initial_proof` (lines 216–241): zip the per-oracle
`(evals, merkle_proof)` pairs with the initial caps — with no length
check — and emit one Merkle verification per zipped pair, all with the
same `cap_index`. -/
def friVerifyInitialProof {p : ℕ} {Dg : Type} (x_index_bits : List Bool)
    (proof : FriInitialTreeProofT p Dg) (initial_merkle_caps : List (List Dg))
    (cap_index : ℕ) : List (Event p Dg) :=
  (proof.evals_proofs.zip initial_merkle_caps).enum.map
    (fun ic =>
      Event.merkleInitial ic.1 ic.2.1.1 x_index_bits cap_index ic.2.2 ic.2.1.2.siblings)

/-- The reduction loop of `fri_verifier_query_round` (lines 347–387).  For
round `i` with log-arity `arity_bits`: split the working index bits, emit
the consistency lookup against `old_eval`, fold via `compute_evaluation`,
emit the round's Merkle verification with the unchanged `cap_index`, then
advance `subgroup_x := subgroup_x^(2^arity_bits)` and replace the working
bits with `coset_index_bits`.  Returns the emitted events and the final
`(bits, subgroup_x, old_eval)` state. -/
def queryLoop {p : ℕ} {Dg : Type} (cfg : CircuitConfig) (ops : FieldOps p)
    (cap_index : ℕ) (betas : List (ZMod p)) (steps : List (FriQueryStepT p Dg))
    (caps : List (List Dg)) :
    List ℕ → ℕ → List Bool → ZMod p → ZMod p →
      List (Event p Dg) × List Bool × ZMod p × ZMod p
  | [], _, bits, sx, old_eval => ([], bits, sx, old_eval)
  | arity_bits :: rest, i, bits, sx, old_eval =>
    let step := steps.getD i ⟨[], ⟨[]⟩⟩
    let evals := step.evals
    let coset_index_bits := bits.drop arity_bits
    let x_index_within_coset_bits := bits.take arity_bits
    let x_index_within_coset := leSumNat x_index_within_coset_bits
    let e1 := Event.randomAccess x_index_within_coset old_eval evals
    let new_eval :=
      computeEvaluation cfg ops sx x_index_within_coset_bits arity_bits evals
        (betas.getD i 0)
    let e2 := Event.merkleRound i evals coset_index_bits cap_index
      (caps.getD i []) step.merkle_proof.siblings
    let res := queryLoop cfg ops cap_index betas steps caps rest (i + 1)
      coset_index_bits (sx ^ 2 ^ arity_bits) new_eval
    (e1 :: e2 :: res.1, res.2)

/-- Horner evaluation of the final polynomial's literal coefficients at a
scalar point (`PolynomialCoeffsExtTarget::eval_scalar`; modelled from the
spec's "Horner over literal coefficients"). -/
def evalScalar {p : ℕ} (coeffs : List (ZMod p)) (x : ZMod p) : ZMod p :=
  coeffs.foldr (fun c acc => acc * x + c) 0

/-- Embeds `fri_verifier_query_round` (lines 287–400): run the native
non-canonical-index assertion, draw the index challenge and decompose it,
derive `cap_index` from the top `cap_height` bits, verify the initial
proofs, reconstruct `subgroup_x`, combine the initial oracles, run the
reduction loop, and emit the final equality constraint between the final
polynomial's evaluation and the last folded value. -/
def friVerifierQueryRound {p : ℕ} {Dg σ : Type} (cfg : CircuitConfig)
    (ops : FieldOps p) (chal : Challenger p Dg σ) (inst : FriInstanceInfoT p)
    (alpha : ZMod p) (precomputed : List (ZMod p))
    (initial_merkle_caps : List (List Dg)) (proof : FriProofT p Dg) (s : σ)
    (n : ℕ) (betas : List (ZMod p)) (round_proof : FriQueryRoundT p Dg)
    (params : FriParams) (D : ℕ) : List (Event p Dg) × Option String × σ :=
  let n_log := Nat.log2 n
  match assertNoncanonicalIndicesOk p params.config with
  | Except.error e => ([], some e, s)
  | Except.ok _ =>
    let (x_index, s1) := chal.getChallenge s
    let x_index_bits := lowBits x_index n_log 64
    let cap_index :=
      leSumNat (x_index_bits.drop (x_index_bits.length - params.config.cap_height))
    let initialEvents := friVerifyInitialProof x_index_bits
      round_proof.initial_trees_proof initial_merkle_caps cap_index
    let subgroup_x := ops.coset_shift *
      ops.primitive_root_of_unity n_log ^ leSumNat x_index_bits.reverse
    match friCombineInitial D inst round_proof.initial_trees_proof alpha
        subgroup_x precomputed params with
    | Except.error e =>
      (Event.getChallenge x_index :: initialEvents, some e, s1)
    | Except.ok old_eval =>
      let res := queryLoop cfg ops cap_index betas round_proof.steps
        proof.commit_phase_merkle_caps params.reduction_arity_bits 0
        x_index_bits subgroup_x old_eval
      let eval := evalScalar proof.final_poly res.2.2.1
      (Event.getChallenge x_index :: initialEvents ++ res.1
        ++ [Event.connectExt eval res.2.2.2], none, s1)

/-- Embeds `PrecomputedReducedOpeningsTarget::from_os_and_alpha` (lines 430–445):
for each batch, the Horner reduction of its claimed values by `alpha`
(with a fresh running factor per batch). -/
def precomputedReducedOpenings {p : ℕ} (openings : FriOpeningsT p)
    (alpha : ZMod p) : List (ZMod p) :=
  openings.batches.map
    (fun batch => (ReducingFactorT.reduce ⟨alpha, 0⟩ batch.values).1)

/-- The beta-recovery loop of `verify_fri_proof` (lines 152–163): for each
commit-phase cap, observe it and immediately draw that round's folding
challenge. -/
def observeCapsAndGetBetas {p : ℕ} {Dg σ : Type} (chal : Challenger p Dg σ) :
    List (List Dg) → ℕ → σ → List (Event p Dg) × List (ZMod p) × σ
  | [], _, s => ([], [], s)
  | cap :: rest, i, s =>
    let s1 := chal.observeCap cap s
    let br := chal.getExtensionChallenge s1
    let res := observeCapsAndGetBetas chal rest (i + 1) br.2
    (Event.observeCap i :: Event.getExtChallenge br.1 :: res.1,
     br.1 :: res.2.1, res.2.2)

/-- The query-round loop of `verify_fri_proof` (lines 185–213): run the
query rounds in order, threading the transcript; a native abort inside a
round stops the construction. -/
def runQueryRounds {p : ℕ} {Dg σ : Type} (cfg : CircuitConfig)
    (ops : FieldOps p) (chal : Challenger p Dg σ) (inst : FriInstanceInfoT p)
    (alpha : ZMod p) (precomputed : List (ZMod p))
    (initial_merkle_caps : List (List Dg)) (proof : FriProofT p Dg) (n : ℕ)
    (betas : List (ZMod p)) (params : FriParams) (D : ℕ) :
    List (FriQueryRoundT p Dg) → σ → List (Event p Dg) × Option String × σ
  | [], s => ([], none, s)
  | r :: rs, s =>
    match friVerifierQueryRound cfg ops chal inst alpha precomputed
        initial_merkle_caps proof s n betas r params D with
    | (evs, some e, s1) => (evs, some e, s1)
    | (evs, none, s1) =>
      let res := runQueryRounds cfg ops chal inst alpha precomputed
        initial_merkle_caps proof n betas params D rs s1
      (evs ++ res.1, res.2)

/-- Embeds `verify_fri_proof` (lines 122–214): capacity check when a maximum arity
exists; final-polynomial length check; then the transcript phase (observe
openings, draw `alpha`, per-cap observe-and-draw, observe the final
polynomial, proof-of-work check); then the query-round count check; then
the precomputed reduced openings and the query rounds. -/
def verifyFriProof {p : ℕ} {Dg σ : Type} (gates : GateLibrary)
    (cfg : CircuitConfig) (ops : FieldOps p) (chal : Challenger p Dg σ)
    (inst : FriInstanceInfoT p) (os : OpeningSetT p)
    (initial_merkle_caps : List (List Dg)) (proof : FriProofT p Dg) (s : σ)
    (params : FriParams) (D : ℕ) : List (Event p Dg) × Option String × σ :=
  match (match params.max_arity_bits with
         | some mab => checkRecursionConfig gates cfg mab
         | none => Except.ok ()) with
  | Except.error e => ([], some e, s)
  | Except.ok _ =>
    if params.final_poly_len ≠ proof.final_poly.length then
      ([], some ("Final polynomial has wrong degree."), s)
    else
      let n := params.lde_size
      let s1 := chal.observeOpeningSet os s
      let ar := chal.getExtensionChallenge s1
      let alpha := ar.1
      let cr := observeCapsAndGetBetas chal proof.commit_phase_merkle_caps 0 ar.2
      let betas := cr.2.1
      let s3 := chal.observeExtensionElements proof.final_poly cr.2.2
      let pr := friVerifyProofOfWork ops chal proof params.config s3
      let headEvents := Event.observeOpeningSet :: Event.getExtChallenge alpha
        :: cr.1 ++ [Event.observeFinalPoly proof.final_poly] ++ pr.1
      if params.config.num_query_rounds ≠ proof.query_round_proofs.length then
        (headEvents, some ("Number of query rounds does not match config."), pr.2)
      else
        let precomputed := precomputedReducedOpenings os.to_fri_openings alpha
        let qr := runQueryRounds cfg ops chal inst alpha precomputed
          initial_merkle_caps proof n betas params D proof.query_round_proofs pr.2
        (headEvents ++ qr.1, qr.2)

/-- Horner reduction `v_0 + base*v_1 + base^2*v_2 + ...` (the value
computed by `ReducingFactorTarget::reduce`). -/
def hornerReduce {p : ℕ} (terms : List (ZMod p)) (base : ZMod p) : ZMod p :=
  terms.foldr (fun t acc => acc * base + t) 0

/-- The spec's reading of `fri_combine_initial`'s accumulation (§4.4): one
single reduction continued across all batches — batch `k`'s reduced
quotient is weighted by `alpha` raised to the total number of evaluations
of all *later* batches, so the running power never resets between
batches. -/
def specCombine {p : ℕ} {Dg : Type} (inst : FriInstanceInfoT p)
    (proof : FriInitialTreeProofT p Dg) (params : FriParams)
    (alpha subgroup_x : ZMod p) : List (FriBatchInfoT p × ZMod p) → ZMod p
  | [] => 0
  | (b, ro) :: rest =>
    (hornerReduce (batchEvals inst proof params b) alpha - ro)
        * (subgroup_x - b.point)⁻¹
        * alpha ^ (rest.map (fun br => br.1.polynomials.length)).sum
      + specCombine inst proof params alpha subgroup_x rest

/-- The kinds of events a query round can emit (used to state that the
transcript phase of `verify_fri_proof` is never interleaved with
query-round work). -/
def Event.isQueryRoundKind {p : ℕ} {Dg : Type} : Event p Dg → Bool
  | .getChallenge _ => true
  | .merkleInitial _ _ _ _ _ _ => true
  | .merkleRound _ _ _ _ _ _ => true
  | .randomAccess _ _ _ => true
  | .connectExt _ _ => true
  | _ => false

/-- The cap index carried by a Merkle-verification event, if any. -/
def Event.capIdxOf {p : ℕ} {Dg : Type} : Event p Dg → Option ℕ
  | .merkleInitial _ _ _ ci _ _ => some ci
  | .merkleRound _ _ _ ci _ _ => some ci
  | _ => none

/-- The conclusion of claim C1, as a predicate on the query-round inputs:
after the reduction loop — which powers `subgroup_x` up by `2^arity_bits`
each round and replaces the working bits with `coset_index_bits` — the
round's trace ends with the equality constraint between the Horner
evaluation of the final polynomial at the final `subgroup_x` and the last
folded value. -/
def queryRoundFinalCheckProp (p : ℕ) (Dg σ : Type) (cfg : CircuitConfig)
    (ops : FieldOps p) (chal : Challenger p Dg σ) (inst : FriInstanceInfoT p)
    (alpha : ZMod p) (precomputed : List (ZMod p)) (caps : List (List Dg))
    (proof : FriProofT p Dg) (s : σ) (n : ℕ) (betas : List (ZMod p))
    (rp : FriQueryRoundT p Dg) (params : FriParams) (D : ℕ) : Prop :=
  let x_index := (chal.getChallenge s).1
  let bits := lowBits x_index (Nat.log2 n) 64
  let cap_index := leSumNat (bits.drop (bits.length - params.config.cap_height))
  let sx0 := ops.coset_shift
    * ops.primitive_root_of_unity (Nat.log2 n) ^ leSumNat bits.reverse
  let old_eval := ((inst.batches.zip precomputed).foldl
    (combineBatchStep inst rp.initial_trees_proof sx0 params) (0, ⟨alpha, 0⟩)).1
  let L := queryLoop cfg ops cap_index betas rp.steps
    proof.commit_phase_merkle_caps params.reduction_arity_bits 0 bits sx0 old_eval
  (friVerifierQueryRound cfg ops chal inst alpha precomputed caps proof s n
      betas rp params D).1
    = Event.getChallenge x_index
      :: friVerifyInitialProof bits rp.initial_trees_proof caps cap_index
      ++ L.1
      ++ [Event.connectExt
          (evalScalar proof.final_poly
            (sx0 ^ 2 ^ params.reduction_arity_bits.sum)) L.2.2.2]
  ∧ L.2.2.1 = sx0 ^ 2 ^ params.reduction_arity_bits.sum
  ∧ L.2.1 = bits.drop params.reduction_arity_bits.sum

/-- The conclusion of claim C2, as a predicate on the verifier inputs: the
trace opens with the opening-set observation, then the `alpha` draw, then
cap-by-cap observe-then-draw pairs in order (one beta per cap), then the
final-polynomial observation, then the proof-of-work events, and whatever
follows is query-round work only. -/
def transcriptOrderProp (p : ℕ) (Dg σ : Type) (gates : GateLibrary)
    (cfg : CircuitConfig) (ops : FieldOps p) (chal : Challenger p Dg σ)
    (inst : FriInstanceInfoT p) (os : OpeningSetT p) (caps : List (List Dg))
    (proof : FriProofT p Dg) (s : σ) (params : FriParams) (D : ℕ) : Prop :=
  ∃ (alpha : ZMod p) (betas : List (ZMod p)) (digest : List (ZMod p))
    (hsh : ZMod p) (tail : List (Event p Dg)),
    betas.length = proof.commit_phase_merkle_caps.length
    ∧ (verifyFriProof gates cfg ops chal inst os caps proof s params D).1
      = Event.observeOpeningSet :: Event.getExtChallenge alpha
        :: (betas.enum.map
            (fun je => [Event.observeCap je.1, Event.getExtChallenge je.2])).flatten
        ++ [Event.observeFinalPoly proof.final_poly]
        ++ [Event.getHash digest,
            Event.leadingZeros hsh
              (params.config.proof_of_work_bits + (64 - orderBits p))]
        ++ tail
    ∧ tail.all Event.isQueryRoundKind = true

/-! Concrete fixtures used by the witness theorems. -/

/-- A concrete initial-tree proof over `ZMod 17` with digest type `ℕ`. -/
def cITP7 : FriInitialTreeProofT 17 ℕ :=
  ⟨[([3, 4], ⟨[9]⟩)]⟩

/-- Concrete parameters: `degree_bits = 1`, no reductions, trivial config. -/
def cParams7 : FriParams :=
  ⟨⟨0, 0, 0, 0⟩, false, 1, []⟩

/-- A concrete instance with one oracle and two opening batches. -/
def cInst7 : FriInstanceInfoT 17 :=
  ⟨[⟨2, false⟩], [⟨5, [⟨0, 0⟩, ⟨0, 1⟩]⟩, ⟨7, [⟨0, 0⟩]⟩]⟩

/-- A concrete challenger over `ZMod 17` with state `ℕ`. -/
def cChal : Challenger 17 ℕ ℕ where
  observeOpeningSet := fun _ s => s + 1
  observeCap := fun _ s => s + 1
  observeExtensionElements := fun _ s => s + 1
  getChallenge := fun s => ((s : ZMod 17), s + 1)
  getExtensionChallenge := fun s => ((s : ZMod 17) + 1, s + 1)
  getHash := fun s => ([(s : ZMod 17)], s + 1)

/-- Concrete field/hash capabilities over `ZMod 17`. -/
def cOps : FieldOps 17 :=
  ⟨fun k => 3 ^ k, 2, fun l => l.sum⟩

/-- A roomy concrete circuit configuration. -/
def cCfg : CircuitConfig :=
  ⟨100, 80, 8, ⟨0, 0, 0, 0⟩⟩

/-- Concrete gate costs (all zero). -/
def cGates : GateLibrary :=
  ⟨fun _ => ⟨0, 0⟩, fun _ => ⟨0, 0⟩, fun _ => ⟨0, 0⟩⟩

/-- The empty instance. -/
def cInst0 : FriInstanceInfoT 17 := ⟨[], []⟩

/-- The empty opening set. -/
def cOS0 : OpeningSetT 17 := ⟨⟨[]⟩⟩

/-- An empty query round. -/
def cRound0 : FriQueryRoundT 17 ℕ := ⟨⟨[]⟩, []⟩

/-- An empty proof. -/
def cProof0 : FriProofT 17 ℕ := ⟨[], [], [], 0⟩

/-- Parameters with no reductions, degree 0, zero query rounds. -/
def cParamsC2 : FriParams := ⟨⟨0, 0, 0, 0⟩, false, 0, []⟩

/-- A shape-consistent proof for `cParamsC2` with two commit-phase caps. -/
def cProofC2 : FriProofT 17 ℕ := ⟨[[1], [2]], [], [5], 3⟩

/-- Parameters expecting one query round (used to exhibit the late
query-round-count check). -/
def cParamsC3 : FriParams := ⟨⟨0, 0, 0, 1⟩, false, 0, []⟩

/-- A proof with the right final-polynomial length but zero query rounds. -/
def cProofC3 : FriProofT 17 ℕ := ⟨[[1]], [], [5], 3⟩

/-- Parameters for the non-canonical-index witness (tiny field: fails). -/
def cParams8 : FriParams := ⟨⟨0, 0, 0, 0⟩, false, 1, []⟩

/-- Gate costs that grow with the arity (for the capacity-check witness). -/
def cGates6 : GateLibrary :=
  ⟨fun b => ⟨b + 5, b + 4⟩, fun b => ⟨b + 3, b + 2⟩, fun b => ⟨b + 1, b + 1⟩⟩

/-- A circuit configuration with no wires at all. -/
def cCfgBad : CircuitConfig := ⟨0, 0, 8, ⟨0, 0, 0, 0⟩⟩

/-- Parameters whose maximum reduction arity exists (`2^1`). -/
def cParams6 : FriParams := ⟨⟨0, 0, 0, 0⟩, false, 0, [1]⟩

/-- The Goldilocks order, under which the non-canonical-index assertion
passes. -/
def P : ℕ := 18446744069414584321

/-- A concrete challenger over the Goldilocks-order field. -/
def gChal : Challenger P ℕ ℕ where
  observeOpeningSet := fun _ s => s + 1
  observeCap := fun _ s => s + 1
  observeExtensionElements := fun _ s => s + 1
  getChallenge := fun s => ((s : ZMod P), s + 1)
  getExtensionChallenge := fun s => ((s : ZMod P) + 1, s + 1)
  getHash := fun s => ([(s : ZMod P)], s + 1)

/-- Concrete field/hash capabilities over the Goldilocks-order field. -/
def gOps : FieldOps P :=
  ⟨fun k => 7 ^ k, 3, fun l => l.sum⟩

/-- Concrete parameters: `rate_bits = 3`, `cap_height = 1`,
`degree_bits = 2`, one reduction of log-arity 1. -/
def gParams : FriParams := ⟨⟨3, 1, 0, 1⟩, false, 2, [1]⟩

/-- A concrete initial-tree proof whose path length matches `gParams`
(`2 = 1 + 4 - 3`). -/
def gITP : FriInitialTreeProofT P ℕ := ⟨[([5], ⟨[1, 2, 3, 4]⟩)]⟩

/-- A concrete query round with one reduction step of arity `2^1`. -/
def gRound : FriQueryRoundT P ℕ := ⟨gITP, [⟨[4, 6], ⟨[8]⟩⟩]⟩

/-- A concrete proof with one commit-phase cap and one query round. -/
def gProof : FriProofT P ℕ := ⟨[[11]], [gRound], [2, 3], 9⟩

/-- A concrete instance with one oracle and one batch. -/
def gInst : FriInstanceInfoT P := ⟨[⟨1, false⟩], [⟨4, [⟨0, 0⟩]⟩]⟩

section Helpers

lemma foldl_add_eq {K : Type} [AddCommMonoid K] (f : ℕ → K) :
    ∀ (l : List ℕ) (a : K),
      l.foldl (fun acc j => acc + f j) a = a + (l.map f).sum
  | [], a => by simp
  | j :: l, a => by
    simp [foldl_add_eq f l, add_assoc]

lemma foldl_mul_if_eq {K : Type} [CommMonoid K] (g : ℕ → K) (j : ℕ) :
    ∀ (l : List ℕ) (q : K),
      l.foldl (fun q m => if m = j then q else q * g m) q
        = q * (l.map (fun m => if m = j then 1 else g m)).prod
  | [], q => by simp
  | m :: l, q => by
    by_cases hm : m = j
    · simp [hm, foldl_mul_if_eq g j l]
    · simp [hm, foldl_mul_if_eq g j l, mul_assoc]

lemma range_map_sum {K : Type} [AddCommMonoid K] (f : ℕ → K) :
    ∀ n : ℕ, ((List.range n).map f).sum = ∑ i ∈ Finset.range n, f i
  | 0 => by simp
  | n + 1 => by
    simp [List.range_succ, Finset.sum_range_succ, range_map_sum f n]

lemma range_map_prod {K : Type} [CommMonoid K] (f : ℕ → K) :
    ∀ n : ℕ, ((List.range n).map f).prod = ∏ i ∈ Finset.range n, f i
  | 0 => by simp
  | n + 1 => by
    simp [List.range_succ, Finset.prod_range_succ, range_map_prod f n]

lemma prod_if_erase {K : Type} [CommMonoid K] (g : ℕ → K) (n j : ℕ) :
    (∏ m ∈ Finset.range n, if m = j then 1 else g m)
      = ∏ m ∈ (Finset.range n).erase j, g m := by
  rw [← Finset.filter_ne' (Finset.range n) j, Finset.prod_filter]
  refine Finset.prod_congr rfl (fun m _ => ?_)
  by_cases hm : m = j <;> simp [hm]

lemma zip_take_take {α β : Type} :
    ∀ (l : List α) (l' : List β),
      l.zip l' = (l.take l'.length).zip (l'.take l.length)
  | [], _ => by simp
  | _ :: _, [] => by simp
  | a :: l, b :: l' => by
    simpa using zip_take_take l l'

end Helpers

/-- C5.  In `compute_evaluation` the low-degree interpolation gate is
selected exactly when the arity `2^arity_bits` exceeds
`max_quotient_degree_factor` and the high-degree gate otherwise; and the
two gate strategies produce an identical folded value on identical coset
evaluations, coset start point and folding challenge `beta` (so in
particular they agree for every arity where both are legal). -/
theorem compute_evaluation_gate_choice_and_agreement :
    (∀ (p : ℕ) (cfg : CircuitConfig) (ops : FieldOps p) (x : ZMod p)
        (bits : List Bool) (arity_bits : ℕ) (evals : List (ZMod p))
        (beta : ZMod p),
      computeEvaluation cfg ops x bits arity_bits evals beta =
        if 2 ^ arity_bits > cfg.max_quotient_degree_factor then
          lowDegreeInterpolateCoset (ops.primitive_root_of_unity arity_bits)
            ((ops.primitive_root_of_unity arity_bits ^ (2 ^ arity_bits - 1))
                ^ leSumNat bits.reverse * x)
            (2 ^ arity_bits) (reverseIndexBits arity_bits evals 0) beta
        else
          highDegreeInterpolateCoset (ops.primitive_root_of_unity arity_bits)
            ((ops.primitive_root_of_unity arity_bits ^ (2 ^ arity_bits - 1))
                ^ leSumNat bits.reverse * x)
            (2 ^ arity_bits) (reverseIndexBits arity_bits evals 0) beta)
    ∧ (∀ (p : ℕ) (g cosetStart : ZMod p) (n : ℕ) (evals : List (ZMod p))
        (beta : ZMod p),
      lowDegreeInterpolateCoset g cosetStart n evals beta
        = highDegreeInterpolateCoset g cosetStart n evals beta) := by
  constructor
  · intro p cfg ops x bits arity_bits evals beta
    rfl
  · intro p g cosetStart n evals beta
    unfold lowDegreeInterpolateCoset highDegreeInterpolateCoset
    rw [foldl_add_eq, range_map_sum, zero_add]
    refine Finset.sum_congr rfl (fun j _ => ?_)
    rw [foldl_mul_if_eq, range_map_prod, one_mul, prod_if_erase]

/-- C10.  `fri_verify_initial_proof` zips the proof's per-oracle pairs with
the caps without a length check: the number of Merkle verifications it
emits is the minimum of the two lengths, and surplus entries of either
sequence are silently dropped (the output is unchanged if either sequence
is truncated to the other's length); no abort channel exists in this
function, so nothing is raised for the skipped entries. -/
theorem fri_verify_initial_proof_zip_truncation :
    ∀ (p : ℕ) (Dg : Type) (bits : List Bool)
      (proof : FriInitialTreeProofT p Dg) (caps : List (List Dg)) (ci : ℕ),
      (friVerifyInitialProof bits proof caps ci).length
          = min proof.evals_proofs.length caps.length
      ∧ friVerifyInitialProof bits proof caps ci
          = friVerifyInitialProof bits ⟨proof.evals_proofs.take caps.length⟩
              (caps.take proof.evals_proofs.length) ci := by
  intro p Dg bits proof caps ci
  constructor
  · simp [friVerifyInitialProof]
  · unfold friVerifyInitialProof
    rw [← zip_take_take]

lemma combine_foldl_eq_specCombine {p : ℕ} {Dg : Type}
    (inst : FriInstanceInfoT p) (proof : FriInitialTreeProofT p Dg)
    (params : FriParams) (alpha subgroup_x : ZMod p)
    (l : List (FriBatchInfoT p × ZMod p)) :
    ∀ sum : ZMod p,
      (l.foldl (combineBatchStep inst proof subgroup_x params)
          (sum, ⟨alpha, 0⟩)).1
        = sum * alpha ^ (l.map (fun br => br.1.polynomials.length)).sum
          + specCombine inst proof params alpha subgroup_x l := by
  induction l with
  | nil => intro sum; simp [specCombine]
  | cons hd rest ih =>
    intro sum
    obtain ⟨b, ro⟩ := hd
    have hstep : combineBatchStep inst proof subgroup_x params
        (sum, ⟨alpha, 0⟩) (b, ro)
        = (sum * alpha ^ b.polynomials.length
            + (hornerReduce (batchEvals inst proof params b) alpha - ro)
              * (subgroup_x - b.point)⁻¹, ⟨alpha, 0⟩) := by
      simp [combineBatchStep, ReducingFactorT.reduce, ReducingFactorT.shift,
        hornerReduce, batchEvals]
    simp only [List.foldl_cons, hstep, List.map_cons, List.sum_cons, specCombine]
    rw [ih]
    ring

/-- C7.  `fri_combine_initial` maintains one running power of `alpha`
across all opening batches: under the two native preconditions it returns
exactly the continued reduction `specCombine`, in which each batch's
Horner-reduced leaf evaluations minus the precomputed opening, divided by
`(subgroup_x - point)`, is weighted by `alpha` to the total count of all
later batches' evaluations — the shift-then-divide-add accumulator never
resets the power between batches, and one single extension value results. -/
theorem fri_combine_initial_running_alpha {p : ℕ} {Dg : Type} (D : ℕ)
    (inst : FriInstanceInfoT p) (proof : FriInitialTreeProofT p Dg)
    (alpha subgroup_x : ZMod p) (precomputed : List (ZMod p))
    (params : FriParams) (hD : 1 < D)
    (hdeg : params.degree_bits = params.config.cap_height
        + (proof.evals_proofs.getD 0 ([], ⟨[]⟩)).2.siblings.length
        - params.config.rate_bits) :
    friCombineInitial D inst proof alpha subgroup_x precomputed params
      = Except.ok (specCombine inst proof params alpha subgroup_x
          (inst.batches.zip precomputed)) := by
  unfold friCombineInitial
  rw [if_neg (not_not_intro hD), if_neg (not_not_intro hdeg)]
  rw [combine_foldl_eq_specCombine]
  simp

/-- Witness for C7 at a concrete input: the hypotheses hold and the
combination evaluates to the continued-power closed form. -/
theorem fri_combine_initial_running_alpha_witness :
    ((1 : ℕ) < 2
      ∧ cParams7.degree_bits = cParams7.config.cap_height
          + (cITP7.evals_proofs.getD 0 ([], ⟨[]⟩)).2.siblings.length
          - cParams7.config.rate_bits)
    ∧ friCombineInitial 2 cInst7 cITP7 3 6 [1, 2] cParams7
        = Except.ok (specCombine cInst7 cITP7 cParams7 3 6
            (cInst7.batches.zip [1, 2])) :=
  ⟨⟨by decide, by decide⟩,
   fri_combine_initial_running_alpha 2 cInst7 cITP7 3 6 [1, 2] cParams7
     (by decide) (by decide)⟩

/-- C8.  The non-canonical index-decomposition check is a native
construction-time assertion (an `Except` abort, never an emitted
constraint): it succeeds exactly when the ambiguous-encoding probability
`(2^64 - p)/p` is smaller than `rate * 1e-5`, and when it fails the query
round aborts immediately with no event emitted — in particular before the
index challenge is drawn or decomposed into bits — for every query round,
since it runs at the start of each. -/
theorem assert_noncanonical_indices_native_check :
    (∀ (p : ℕ) (config : FriConfig),
      assertNoncanonicalIndicesOk p config = Except.ok ()
        ↔ ((2 ^ 64 : ℚ) - p) / p < config.rate * (1 / 100000))
    ∧ (∀ (p : ℕ) (Dg σ : Type) (cfg : CircuitConfig) (ops : FieldOps p)
        (chal : Challenger p Dg σ) (inst : FriInstanceInfoT p)
        (alpha : ZMod p) (precomputed : List (ZMod p)) (caps : List (List Dg))
        (proof : FriProofT p Dg) (s : σ) (n : ℕ) (betas : List (ZMod p))
        (rp : FriQueryRoundT p Dg) (params : FriParams) (D : ℕ) (e : String),
      assertNoncanonicalIndicesOk p params.config = Except.error e →
      friVerifierQueryRound cfg ops chal inst alpha precomputed caps proof s
          n betas rp params D = ([], some e, s)) := by
  constructor
  · intro p config
    have hnum : ((2 ^ 64 - 1 : ℕ) : ℚ) - (p : ℚ) + 1 = (2 ^ 64 : ℚ) - p := by
      push_cast
      ring
    unfold assertNoncanonicalIndicesOk
    rw [hnum]
    by_cases h : ((2 : ℚ) ^ 64 - (p : ℚ)) / (p : ℚ)
        < config.rate * (1 / 100000)
    · simp [h]
    · simp [h]
  · intro p Dg σ cfg ops chal inst alpha precomputed caps proof s n betas rp
      params D e he
    unfold friVerifierQueryRound
    rw [he]

/-- Witness for C8 at concrete inputs: over the tiny field `ZMod 17` the
assertion fails, and a query round at those parameters aborts with that
message, emitting nothing and leaving the transcript state unchanged. -/
theorem assert_noncanonical_indices_native_check_witness :
    (assertNoncanonicalIndicesOk 17 cParams8.config
        = Except.error "A non-negligible portion of field elements are in the range that permits non-canonical encodings. Need to do more analysis or enforce canonical encodings.")
    ∧ friVerifierQueryRound cCfg cOps cChal cInst0 0 [] [] cProof0 0 1 []
        cRound0 cParams8 2
      = ([], some "A non-negligible portion of field elements are in the range that permits non-canonical encodings. Need to do more analysis or enforce canonical encodings.", 0) :=
  ⟨by rw [cParams8, assertNoncanonicalIndicesOk, if_neg]; norm_num [FriConfig.rate],
   assert_noncanonical_indices_native_check.2 17 ℕ ℕ cCfg cOps cChal cInst0 0
     [] [] cProof0 0 1 [] cRound0 cParams8 2 _
     (by rw [cParams8, assertNoncanonicalIndicesOk, if_neg]
         norm_num [FriConfig.rate])⟩

lemma queryRound_pow_congr {p : ℕ} {Dg σ : Type} (cfg : CircuitConfig)
    (ops : FieldOps p) (chal : Challenger p Dg σ) (inst : FriInstanceInfoT p)
    (alpha : ZMod p) (precomputed : List (ZMod p)) (caps : List (List Dg))
    (c : List (List Dg)) (q : List (FriQueryRoundT p Dg))
    (f : List (ZMod p)) (w w' : ZMod p) (s : σ) (n : ℕ)
    (betas : List (ZMod p)) (rp : FriQueryRoundT p Dg) (params : FriParams)
    (D : ℕ) :
    friVerifierQueryRound cfg ops chal inst alpha precomputed caps
        ⟨c, q, f, w⟩ s n betas rp params D
      = friVerifierQueryRound cfg ops chal inst alpha precomputed caps
        ⟨c, q, f, w'⟩ s n betas rp params D := rfl

lemma runQueryRounds_pow_congr {p : ℕ} {Dg σ : Type} (cfg : CircuitConfig)
    (ops : FieldOps p) (chal : Challenger p Dg σ) (inst : FriInstanceInfoT p)
    (alpha : ZMod p) (precomputed : List (ZMod p)) (caps : List (List Dg))
    (c : List (List Dg)) (q : List (FriQueryRoundT p Dg))
    (f : List (ZMod p)) (w w' : ZMod p) (n : ℕ) (betas : List (ZMod p))
    (params : FriParams) (D : ℕ) :
    ∀ (rs : List (FriQueryRoundT p Dg)) (s : σ),
      runQueryRounds cfg ops chal inst alpha precomputed caps ⟨c, q, f, w⟩
          n betas params D rs s
        = runQueryRounds cfg ops chal inst alpha precomputed caps
          ⟨c, q, f, w'⟩ n betas params D rs s := by
  intro rs
  induction rs with
  | nil => intro s; rfl
  | cons r rest ih =>
    intro s
    simp only [runQueryRounds]
    rw [queryRound_pow_congr cfg ops chal inst alpha precomputed caps c q f
      w w' s n betas r params D]
    obtain ⟨evs, err, s1⟩ := friVerifierQueryRound cfg ops chal inst alpha
      precomputed caps ⟨c, q, f, w'⟩ s n betas r params D
    cases err <;> simp [ih]

/-- C4.  The proof-of-work check hashes the transcript digest concatenated
with `pow_witness` into one element and emits a leading-zeros constraint
with threshold `proof_of_work_bits + (64 - field order bits)`; and it can
never cause a construction-time abort: the abort component and final
transcript state of `verify_fri_proof` are the same for every value of
`pow_witness`, so an insufficient witness can only surface as an
unsatisfiable constraint. -/
theorem fri_verify_proof_of_work_hash_and_threshold :
    (∀ (p : ℕ) (Dg σ : Type) (ops : FieldOps p) (chal : Challenger p Dg σ)
        (proof : FriProofT p Dg) (config : FriConfig) (s : σ),
      friVerifyProofOfWork ops chal proof config s
        = ([Event.getHash (chal.getHash s).1,
            Event.leadingZeros
              (ops.hash_n_to_one ((chal.getHash s).1 ++ [proof.pow_witness]))
              (config.proof_of_work_bits + (64 - orderBits p))],
           (chal.getHash s).2))
    ∧ (∀ (p : ℕ) (Dg σ : Type) (gates : GateLibrary) (cfg : CircuitConfig)
        (ops : FieldOps p) (chal : Challenger p Dg σ)
        (inst : FriInstanceInfoT p) (os : OpeningSetT p)
        (caps : List (List Dg)) (s : σ) (params : FriParams) (D : ℕ)
        (c : List (List Dg)) (q : List (FriQueryRoundT p Dg))
        (f : List (ZMod p)) (w w' : ZMod p),
      (verifyFriProof gates cfg ops chal inst os caps ⟨c, q, f, w⟩ s params D).2
        = (verifyFriProof gates cfg ops chal inst os caps ⟨c, q, f, w'⟩ s
            params D).2) := by
  constructor
  · intro p Dg σ ops chal proof config s
    rfl
  · intro p Dg σ gates cfg ops chal inst os caps s params D c q f w w'
    simp only [verifyFriProof]
    cases hc : (match params.max_arity_bits with
      | some mab => checkRecursionConfig gates cfg mab
      | none => Except.ok ()) with
    | error e => rfl
    | ok u =>
      cases u
      by_cases hf : params.final_poly_len ≠ f.length
      · simp [hf]
      · simp only [hf, if_neg, ite_false, if_false]
        by_cases hq : params.config.num_query_rounds ≠ q.length
        · simp [hq, friVerifyProofOfWork]
        · simp only [hq, ite_false, if_false]
          exact congrArg Prod.snd
            (runQueryRounds_pow_congr cfg ops chal inst _ _ caps c q f w w'
              _ _ params D q _)

/-- C6.  When a maximum reduction arity exists, the capacity check takes
the random-access gate's requirements at `max(max_arity_bits, cap_height)`
and the interpolation gate's (low-degree exactly when
`2^max_arity_bits > max_quotient_degree_factor`, else high-degree), forms
the pointwise maxima, succeeds iff the configuration meets both minima,
aborts otherwise with a message naming the minimum needed — and a failing
check makes `verify_fri_proof` abort immediately with that message and no
work done. -/
theorem check_recursion_config_capacity :
    (∀ (gates : GateLibrary) (cfg : CircuitConfig) (mab : ℕ),
      let ra := gates.random_access_from_config (max mab cfg.fri_config.cap_height)
      let interp := if 2 ^ mab > cfg.max_quotient_degree_factor then
        gates.low_degree_interpolation mab else gates.high_degree_interpolation mab
      let min_wires := max ra.num_wires interp.num_wires
      let min_routed_wires := max ra.num_routed_wires interp.num_routed_wires
      (checkRecursionConfig gates cfg mab = Except.ok ()
        ↔ min_wires ≤ cfg.num_wires ∧ min_routed_wires ≤ cfg.num_routed_wires)
      ∧ ∀ e, checkRecursionConfig gates cfg mab = Except.error e →
          e = ("To efficiently perform FRI checks with an arity of 2^"
            ++ toString mab ++ ", at least " ++ toString min_wires
            ++ " wires are needed. Consider reducing arity.")
          ∨ e = ("To efficiently perform FRI checks with an arity of 2^"
            ++ toString mab ++ ", at least " ++ toString min_routed_wires
            ++ " routed wires are needed. Consider reducing arity."))
    ∧ (∀ (p : ℕ) (Dg σ : Type) (gates : GateLibrary) (cfg : CircuitConfig)
        (ops : FieldOps p) (chal : Challenger p Dg σ)
        (inst : FriInstanceInfoT p) (os : OpeningSetT p)
        (caps : List (List Dg)) (proof : FriProofT p Dg) (s : σ)
        (params : FriParams) (D : ℕ) (mab : ℕ) (e : String),
      params.max_arity_bits = some mab →
      checkRecursionConfig gates cfg mab = Except.error e →
      verifyFriProof gates cfg ops chal inst os caps proof s params D
        = ([], some e, s)) := by
  constructor
  · intro gates cfg mab
    dsimp only
    constructor
    · unfold checkRecursionConfig
      dsimp only
      split_ifs <;> simp_all
    · intro e he
      unfold checkRecursionConfig at he
      dsimp only at he
      split_ifs at he ⊢
      all_goals
        first
          | exact Except.noConfusion he
          | (left; injection he with h; exact h.symm)
          | (right; injection he with h; exact h.symm)
  · intro p Dg σ gates cfg ops chal inst os caps proof s params D mab e h1 h2
    unfold verifyFriProof
    rw [h1]
    dsimp only
    rw [h2]

/-- Witness for C6 at concrete inputs: `cParams6` has maximum arity `2^1`,
and with the zero-capacity configuration the check fails with the message
naming the minimum of 6 wires, making the verifier abort with it. -/
theorem check_recursion_config_capacity_witness :
    (cParams6.max_arity_bits = some 1
      ∧ checkRecursionConfig cGates6 cCfgBad 1
        = Except.error "To efficiently perform FRI checks with an arity of 2^1, at least 6 wires are needed. Consider reducing arity.")
    ∧ verifyFriProof cGates6 cCfgBad cOps cChal cInst0 cOS0 [] cProof0 0
        cParams6 2
      = ([], some "To efficiently perform FRI checks with an arity of 2^1, at least 6 wires are needed. Consider reducing arity.", 0) :=
  ⟨⟨by rfl, by rfl⟩,
   check_recursion_config_capacity.2 17 ℕ ℕ cGates6 cCfgBad cOps cChal cInst0
     cOS0 [] cProof0 0 cParams6 2 1 _ (by rfl) (by rfl)⟩

/-- Counterexample to C3 as stated: with `cParamsC3` (one expected query
round) and `cProofC3` (zero query rounds, correct final-polynomial
length), `verify_fri_proof` does abort on the count mismatch, but only
after emitting the whole transcript/proof-of-work phase — the trace is not
empty, so the abort is not "before any circuit protocol step". -/
theorem verify_fri_proof_count_check_is_late :
    cParamsC3.config.num_query_rounds ≠ cProofC3.query_round_proofs.length
    ∧ (verifyFriProof cGates cCfg cOps cChal cInst0 cOS0 [] cProofC3 0
        cParamsC3 2).2.1
      = some "Number of query rounds does not match config."
    ∧ (verifyFriProof cGates cCfg cOps cChal cInst0 cOS0 [] cProofC3 0
        cParamsC3 2).1 ≠ [] := by
  refine ⟨by decide, by rfl, by decide⟩

lemma capPhase_events_kinds {p : ℕ} {Dg σ : Type} (chal : Challenger p Dg σ) :
    ∀ (caps : List (List Dg)) (i : ℕ) (s : σ),
      ((observeCapsAndGetBetas chal caps i s).1).all
        (fun e => !Event.isQueryRoundKind e) = true
  | [], _, _ => by simp [observeCapsAndGetBetas]
  | cap :: rest, i, s => by
    have ih := capPhase_events_kinds chal rest (i + 1)
      (chal.getExtensionChallenge (chal.observeCap cap s)).2
    simp only [observeCapsAndGetBetas, List.all_cons]
    rw [ih]
    rfl

/-- C3 (amended).  The structural checks are native construction-time
aborts, but they do not all fire before every circuit step: a wrong
final-polynomial length aborts with no events at all; a wrong query-round
count aborts only after the transcript/proof-of-work phase has been
emitted (though before any query-round event); and `fri_combine_initial`
aborts for extension degree `D ≤ 1`. -/
theorem structural_checks_abort_points :
    (∀ (p : ℕ) (Dg σ : Type) (gates : GateLibrary) (cfg : CircuitConfig)
        (ops : FieldOps p) (chal : Challenger p Dg σ)
        (inst : FriInstanceInfoT p) (os : OpeningSetT p)
        (caps : List (List Dg)) (proof : FriProofT p Dg) (s : σ)
        (params : FriParams) (D : ℕ),
      params.final_poly_len ≠ proof.final_poly.length →
      (verifyFriProof gates cfg ops chal inst os caps proof s params D).1 = []
      ∧ ((verifyFriProof gates cfg ops chal inst os caps proof s params
          D).2.1).isSome = true)
    ∧ (∀ (p : ℕ) (Dg σ : Type) (gates : GateLibrary) (cfg : CircuitConfig)
        (ops : FieldOps p) (chal : Challenger p Dg σ)
        (inst : FriInstanceInfoT p) (os : OpeningSetT p)
        (caps : List (List Dg)) (proof : FriProofT p Dg) (s : σ)
        (params : FriParams) (D : ℕ),
      (match params.max_arity_bits with
        | some mab => checkRecursionConfig gates cfg mab
        | none => Except.ok ()) = Except.ok () →
      params.final_poly_len = proof.final_poly.length →
      params.config.num_query_rounds ≠ proof.query_round_proofs.length →
      (verifyFriProof gates cfg ops chal inst os caps proof s params D).2.1
        = some "Number of query rounds does not match config."
      ∧ ((verifyFriProof gates cfg ops chal inst os caps proof s params
            D).1).all (fun e => !Event.isQueryRoundKind e) = true)
    ∧ (∀ (p : ℕ) (Dg : Type) (D : ℕ) (inst : FriInstanceInfoT p)
        (proof : FriInitialTreeProofT p Dg) (alpha subgroup_x : ZMod p)
        (precomputed : List (ZMod p)) (params : FriParams),
      ¬ 1 < D →
      friCombineInitial D inst proof alpha subgroup_x precomputed params
        = Except.error "Not implemented for D=1.") := by
  refine ⟨?_, ?_, ?_⟩
  · intro p Dg σ gates cfg ops chal inst os caps proof s params D hlen
    unfold verifyFriProof
    cases hm : (match params.max_arity_bits with
      | some mab => checkRecursionConfig gates cfg mab
      | none => Except.ok ()) with
    | error e => exact ⟨rfl, rfl⟩
    | ok u =>
      cases u
      dsimp only
      rw [if_pos hlen]
      exact ⟨rfl, rfl⟩
  · intro p Dg σ gates cfg ops chal inst os caps proof s params D hcheck
      hlen hcount
    unfold verifyFriProof
    rw [hcheck]
    dsimp only
    rw [if_neg (not_not_intro hlen), if_pos hcount]
    refine ⟨rfl, ?_⟩
    simp only [friVerifyProofOfWork, List.cons_append, List.all_cons,
      List.all_append]
    rw [capPhase_events_kinds]
    rfl
  · intro p Dg D inst proof alpha subgroup_x precomputed params hD
    unfold friCombineInitial
    rw [if_pos hD]

/-- Witness for C3's amended statement at concrete inputs: an empty final
polynomial aborts with an empty trace; a query-round-count mismatch aborts
with the count message and a trace free of query-round events (but, per
the counterexample, not empty); and `D = 1` aborts the initial
combination. -/
theorem structural_checks_abort_points_witness :
    (cParamsC2.final_poly_len ≠ cProof0.final_poly.length
      ∧ (verifyFriProof cGates cCfg cOps cChal cInst0 cOS0 [] cProof0 0
          cParamsC2 2).1 = []
      ∧ ((verifyFriProof cGates cCfg cOps cChal cInst0 cOS0 [] cProof0 0
          cParamsC2 2).2.1).isSome = true)
    ∧ ((match cParamsC3.max_arity_bits with
          | some mab => checkRecursionConfig cGates cCfg mab
          | none => Except.ok ()) = Except.ok ()
      ∧ cParamsC3.final_poly_len = cProofC3.final_poly.length
      ∧ cParamsC3.config.num_query_rounds ≠ cProofC3.query_round_proofs.length
      ∧ (verifyFriProof cGates cCfg cOps cChal cInst0 cOS0 [] cProofC3 0
          cParamsC3 2).2.1
        = some "Number of query rounds does not match config."
      ∧ ((verifyFriProof cGates cCfg cOps cChal cInst0 cOS0 [] cProofC3 0
            cParamsC3 2).1).all (fun e => !Event.isQueryRoundKind e) = true)
    ∧ (¬ (1 : ℕ) < 1
      ∧ friCombineInitial 1 cInst7 cITP7 3 6 [1, 2] cParams7
        = Except.error "Not implemented for D=1.") :=
  ⟨⟨by decide,
    (structural_checks_abort_points.1 17 ℕ ℕ cGates cCfg cOps cChal cInst0
      cOS0 [] cProof0 0 cParamsC2 2 (by decide)).1,
    (structural_checks_abort_points.1 17 ℕ ℕ cGates cCfg cOps cChal cInst0
      cOS0 [] cProof0 0 cParamsC2 2 (by decide)).2⟩,
   ⟨by rfl, by rfl, by decide,
    (structural_checks_abort_points.2.1 17 ℕ ℕ cGates cCfg cOps cChal cInst0
      cOS0 [] cProofC3 0 cParamsC3 2 (by rfl) (by rfl) (by decide)).1,
    (structural_checks_abort_points.2.1 17 ℕ ℕ cGates cCfg cOps cChal cInst0
      cOS0 [] cProofC3 0 cParamsC3 2 (by rfl) (by rfl) (by decide)).2⟩,
   ⟨by decide,
    structural_checks_abort_points.2.2 17 ℕ 1 cInst7 cITP7 3 6 [1, 2]
      cParams7 (by decide)⟩⟩

lemma queryLoop_capIdx {p : ℕ} {Dg : Type} (cfg : CircuitConfig)
    (ops : FieldOps p) (ci : ℕ) (betas : List (ZMod p))
    (steps : List (FriQueryStepT p Dg)) (caps : List (List Dg)) :
    ∀ (arities : List ℕ) (i : ℕ) (bits : List Bool) (sx oe : ZMod p),
      (((queryLoop cfg ops ci betas steps caps arities i bits sx oe).1).filterMap
          Event.capIdxOf).all (fun c => decide (c = ci)) = true
  | [], _, _, _, _ => by simp [queryLoop]
  | a :: rest, i, bits, sx, oe => by
    have ih := queryLoop_capIdx cfg ops ci betas steps caps rest (i + 1)
      (bits.drop a) (sx ^ 2 ^ a)
      (computeEvaluation cfg ops sx (bits.take a) a
        (steps.getD i ⟨[], ⟨[]⟩⟩).evals (betas.getD i 0))
    simp only [queryLoop, List.filterMap_cons, Event.capIdxOf, List.all_cons]
    rw [ih]
    simp

lemma initial_capIdx {p : ℕ} {Dg : Type} (bits : List Bool)
    (itp : FriInitialTreeProofT p Dg) (caps : List (List Dg)) (ci : ℕ) :
    ((friVerifyInitialProof bits itp caps ci).filterMap Event.capIdxOf).all
      (fun c => decide (c = ci)) = true := by
  rw [List.all_eq_true]
  intro c hc
  rw [List.mem_filterMap] at hc
  obtain ⟨e, he, hce⟩ := hc
  unfold friVerifyInitialProof at he
  rw [List.mem_map] at he
  obtain ⟨ic, _, rfl⟩ := he
  simp only [Event.capIdxOf, Option.some.injEq] at hce
  simp [hce]

/-- C9.  Within a query round the cap index is computed once, from the top
`cap_height` bits of the initial index-bit decomposition, and every Merkle
verification event of the round — the initial-oracle ones and every
reduction round's — carries that same value, even though the working index
bits shrink each round. -/
theorem cap_index_from_top_bits_reused :
    ∀ (p : ℕ) (Dg σ : Type) (cfg : CircuitConfig) (ops : FieldOps p)
      (chal : Challenger p Dg σ) (inst : FriInstanceInfoT p) (alpha : ZMod p)
      (precomputed : List (ZMod p)) (caps : List (List Dg))
      (proof : FriProofT p Dg) (s : σ) (n : ℕ) (betas : List (ZMod p))
      (rp : FriQueryRoundT p Dg) (params : FriParams) (D : ℕ),
      (((friVerifierQueryRound cfg ops chal inst alpha precomputed caps proof
            s n betas rp params D).1).filterMap Event.capIdxOf).all
        (fun c => decide (c =
          leSumNat ((lowBits (chal.getChallenge s).1 (Nat.log2 n) 64).drop
            ((lowBits (chal.getChallenge s).1 (Nat.log2 n) 64).length
              - params.config.cap_height)))) = true := by
  intro p Dg σ cfg ops chal inst alpha precomputed caps proof s n betas rp
    params D
  unfold friVerifierQueryRound
  rcases hx : chal.getChallenge s with ⟨xi, s1⟩
  split
  · simp
  · dsimp only
    split
    · simp only [List.filterMap_cons, Event.capIdxOf]
      exact initial_capIdx _ _ _ _
    · simp only [List.cons_append, List.filterMap_cons,
        List.filterMap_append, Event.capIdxOf, List.all_append]
      rw [initial_capIdx, queryLoop_capIdx]
      simp [Event.capIdxOf]

lemma capPhase_shape {p : ℕ} {Dg σ : Type} (chal : Challenger p Dg σ) :
    ∀ (caps : List (List Dg)) (i : ℕ) (s : σ),
      (observeCapsAndGetBetas chal caps i s).1
        = ((((observeCapsAndGetBetas chal caps i s).2.1).enumFrom i).map
            (fun je => [Event.observeCap je.1, Event.getExtChallenge
              je.2])).flatten
      ∧ ((observeCapsAndGetBetas chal caps i s).2.1).length = caps.length
  | [], _, _ => by simp [observeCapsAndGetBetas]
  | cap :: rest, i, s => by
    have ih := capPhase_shape chal rest (i + 1)
      (chal.getExtensionChallenge (chal.observeCap cap s)).2
    simp only [observeCapsAndGetBetas, List.enumFrom, List.map_cons,
      List.flatten, List.length_cons]
    constructor
    · rw [ih.1]
      simp [List.flatten]
    · rw [ih.2]

lemma queryLoop_kinds {p : ℕ} {Dg : Type} (cfg : CircuitConfig)
    (ops : FieldOps p) (ci : ℕ) (betas : List (ZMod p))
    (steps : List (FriQueryStepT p Dg)) (caps : List (List Dg)) :
    ∀ (arities : List ℕ) (i : ℕ) (bits : List Bool) (sx oe : ZMod p),
      ((queryLoop cfg ops ci betas steps caps arities i bits sx oe).1).all
        Event.isQueryRoundKind = true
  | [], _, _, _, _ => by simp [queryLoop]
  | a :: rest, i, bits, sx, oe => by
    have ih := queryLoop_kinds cfg ops ci betas steps caps rest (i + 1)
      (bits.drop a) (sx ^ 2 ^ a)
      (computeEvaluation cfg ops sx (bits.take a) a
        (steps.getD i ⟨[], ⟨[]⟩⟩).evals (betas.getD i 0))
    simp only [queryLoop, List.all_cons]
    rw [ih]
    rfl

lemma initial_kinds {p : ℕ} {Dg : Type} (bits : List Bool)
    (itp : FriInitialTreeProofT p Dg) (caps : List (List Dg)) (ci : ℕ) :
    (friVerifyInitialProof bits itp caps ci).all Event.isQueryRoundKind
      = true := by
  rw [List.all_eq_true]
  intro e he
  unfold friVerifyInitialProof at he
  rw [List.mem_map] at he
  obtain ⟨ic, _, rfl⟩ := he
  rfl

lemma queryRound_kinds {p : ℕ} {Dg σ : Type} (cfg : CircuitConfig)
    (ops : FieldOps p) (chal : Challenger p Dg σ) (inst : FriInstanceInfoT p)
    (alpha : ZMod p) (precomputed : List (ZMod p)) (caps : List (List Dg))
    (proof : FriProofT p Dg) (s : σ) (n : ℕ) (betas : List (ZMod p))
    (rp : FriQueryRoundT p Dg) (params : FriParams) (D : ℕ) :
    ((friVerifierQueryRound cfg ops chal inst alpha precomputed caps proof s
        n betas rp params D).1).all Event.isQueryRoundKind = true := by
  unfold friVerifierQueryRound
  rcases hx : chal.getChallenge s with ⟨xi, s1⟩
  split
  · simp
  · dsimp only
    split
    · simp only [List.all_cons]
      rw [initial_kinds]
      rfl
    · simp only [List.cons_append, List.all_cons, List.all_append]
      rw [initial_kinds, queryLoop_kinds]
      rfl

lemma runQueryRounds_kinds {p : ℕ} {Dg σ : Type} (cfg : CircuitConfig)
    (ops : FieldOps p) (chal : Challenger p Dg σ) (inst : FriInstanceInfoT p)
    (alpha : ZMod p) (precomputed : List (ZMod p)) (caps : List (List Dg))
    (proof : FriProofT p Dg) (n : ℕ) (betas : List (ZMod p))
    (params : FriParams) (D : ℕ) :
    ∀ (rs : List (FriQueryRoundT p Dg)) (s : σ),
      ((runQueryRounds cfg ops chal inst alpha precomputed caps proof n betas
          params D rs s).1).all Event.isQueryRoundKind = true
  | [], _ => by simp [runQueryRounds]
  | r :: rest, s => by
    simp only [runQueryRounds]
    rcases hr : friVerifierQueryRound cfg ops chal inst alpha precomputed
      caps proof s n betas r params D with ⟨evs, err, s1⟩
    have hall : evs.all Event.isQueryRoundKind = true := by
      have h := queryRound_kinds cfg ops chal inst alpha precomputed caps
        proof s n betas r params D
      rw [hr] at h
      exact h
    cases err with
    | some e => exact hall
    | none =>
      simp only [List.all_append]
      rw [hall, runQueryRounds_kinds cfg ops chal inst alpha precomputed caps
        proof n betas params D rest s1]
      rfl

/-- C2.  Under the two structural preconditions, the verifier's transcript
interactions occur in exactly the claimed order: observe the opening set,
draw `alpha`, observe each commit-phase cap followed immediately by its
folding-challenge draw (one beta per cap, in proof order), observe the
final polynomial's coefficients, and only then the proof-of-work check
(transcript digest plus leading-zeros constraint); everything after is
query-round work only. -/
theorem verify_fri_proof_transcript_order (p : ℕ) (Dg σ : Type)
    (gates : GateLibrary) (cfg : CircuitConfig) (ops : FieldOps p)
    (chal : Challenger p Dg σ) (inst : FriInstanceInfoT p)
    (os : OpeningSetT p) (caps : List (List Dg)) (proof : FriProofT p Dg)
    (s : σ) (params : FriParams) (D : ℕ)
    (hcheck : (match params.max_arity_bits with
      | some mab => checkRecursionConfig gates cfg mab
      | none => Except.ok ()) = Except.ok ())
    (hlen : params.final_poly_len = proof.final_poly.length) :
    transcriptOrderProp p Dg σ gates cfg ops chal inst os caps proof s
      params D := by
  unfold transcriptOrderProp verifyFriProof
  rw [hcheck]
  dsimp only
  rw [if_neg (not_not_intro hlen)]
  simp only [friVerifyProofOfWork]
  by_cases hq : params.config.num_query_rounds
      ≠ proof.query_round_proofs.length
  · rw [if_pos hq]
    refine ⟨(chal.getExtensionChallenge (chal.observeOpeningSet os s)).1,
      (observeCapsAndGetBetas chal proof.commit_phase_merkle_caps 0
        (chal.getExtensionChallenge (chal.observeOpeningSet os s)).2).2.1,
      (chal.getHash (chal.observeExtensionElements proof.final_poly
        (observeCapsAndGetBetas chal proof.commit_phase_merkle_caps 0
          (chal.getExtensionChallenge (chal.observeOpeningSet os s)).2).2.2)).1,
      ops.hash_n_to_one
        ((chal.getHash (chal.observeExtensionElements proof.final_poly
          (observeCapsAndGetBetas chal proof.commit_phase_merkle_caps 0
            (chal.getExtensionChallenge
              (chal.observeOpeningSet os s)).2).2.2)).1
          ++ [proof.pow_witness]),
      [], (capPhase_shape chal _ 0 _).2, ?_, rfl⟩
    rw [show (observeCapsAndGetBetas chal proof.commit_phase_merkle_caps 0
        (chal.getExtensionChallenge (chal.observeOpeningSet os s)).2).1
      = _ from (capPhase_shape chal _ 0 _).1]
    simp [List.enum]
  · rw [if_neg hq]
    refine ⟨(chal.getExtensionChallenge (chal.observeOpeningSet os s)).1,
      (observeCapsAndGetBetas chal proof.commit_phase_merkle_caps 0
        (chal.getExtensionChallenge (chal.observeOpeningSet os s)).2).2.1,
      (chal.getHash (chal.observeExtensionElements proof.final_poly
        (observeCapsAndGetBetas chal proof.commit_phase_merkle_caps 0
          (chal.getExtensionChallenge (chal.observeOpeningSet os s)).2).2.2)).1,
      ops.hash_n_to_one
        ((chal.getHash (chal.observeExtensionElements proof.final_poly
          (observeCapsAndGetBetas chal proof.commit_phase_merkle_caps 0
            (chal.getExtensionChallenge
              (chal.observeOpeningSet os s)).2).2.2)).1
          ++ [proof.pow_witness]),
      (runQueryRounds cfg ops chal inst
        (chal.getExtensionChallenge (chal.observeOpeningSet os s)).1
        (precomputedReducedOpenings os.to_fri_openings
          (chal.getExtensionChallenge (chal.observeOpeningSet os s)).1)
        caps proof params.lde_size
        (observeCapsAndGetBetas chal proof.commit_phase_merkle_caps 0
          (chal.getExtensionChallenge (chal.observeOpeningSet os s)).2).2.1
        params D proof.query_round_proofs
        (chal.getHash (chal.observeExtensionElements proof.final_poly
          (observeCapsAndGetBetas chal proof.commit_phase_merkle_caps 0
            (chal.getExtensionChallenge
              (chal.observeOpeningSet os s)).2).2.2)).2).1,
      (capPhase_shape chal _ 0 _).2, ?_,
      runQueryRounds_kinds cfg ops chal inst _ _ caps proof _ _ params D
        proof.query_round_proofs _⟩
    rw [show (observeCapsAndGetBetas chal proof.commit_phase_merkle_caps 0
        (chal.getExtensionChallenge (chal.observeOpeningSet os s)).2).1
      = _ from (capPhase_shape chal _ 0 _).1]
    simp [List.enum]

/-- Witness for C2 at concrete inputs (no reductions, so the capacity
check is vacuous; final polynomial of the right length): the transcript
order property holds for `cProofC2`. -/
theorem verify_fri_proof_transcript_order_witness :
    ((match cParamsC2.max_arity_bits with
        | some mab => checkRecursionConfig cGates cCfg mab
        | none => Except.ok ()) = Except.ok ()
      ∧ cParamsC2.final_poly_len = cProofC2.final_poly.length)
    ∧ transcriptOrderProp 17 ℕ ℕ cGates cCfg cOps cChal cInst0 cOS0 []
        cProofC2 0 cParamsC2 2 :=
  ⟨⟨by rfl, by rfl⟩,
   verify_fri_proof_transcript_order 17 ℕ ℕ cGates cCfg cOps cChal cInst0
     cOS0 [] cProofC2 0 cParamsC2 2 (by rfl) (by rfl)⟩

lemma queryLoop_state {p : ℕ} {Dg : Type} (cfg : CircuitConfig)
    (ops : FieldOps p) (ci : ℕ) (betas : List (ZMod p))
    (steps : List (FriQueryStepT p Dg)) (caps : List (List Dg)) :
    ∀ (arities : List ℕ) (i : ℕ) (bits : List Bool) (sx oe : ZMod p),
      (queryLoop cfg ops ci betas steps caps arities i bits sx oe).2.2.1
          = sx ^ 2 ^ arities.sum
      ∧ (queryLoop cfg ops ci betas steps caps arities i bits sx oe).2.1
          = bits.drop arities.sum
  | [], _, bits, sx, _ => by simp [queryLoop]
  | a :: rest, i, bits, sx, oe => by
    have ih := queryLoop_state cfg ops ci betas steps caps rest (i + 1)
      (bits.drop a) (sx ^ 2 ^ a)
      (computeEvaluation cfg ops sx (bits.take a) a
        (steps.getD i ⟨[], ⟨[]⟩⟩).evals (betas.getD i 0))
    simp only [queryLoop, List.sum_cons]
    constructor
    · rw [ih.1, ← pow_mul, ← pow_add]
    · rw [ih.2, List.drop_drop, Nat.add_comm]

/-- C1.  Under the native preconditions of a query round, the reduction
loop advances `subgroup_x` to `subgroup_x^(2^arity_bits[i])` in each round
and replaces the working index bits with `coset_index_bits` (so after all
rounds `subgroup_x` has been raised to `2^(sum of arities)` and the bits
have been dropped accordingly), and the round's trace ends with the
equality constraint between the Horner evaluation of the proof's final
polynomial at the final `subgroup_x` and the last folded `old_eval`. -/
theorem fri_verifier_query_round_final_check (p : ℕ) (Dg σ : Type)
    (cfg : CircuitConfig) (ops : FieldOps p) (chal : Challenger p Dg σ)
    (inst : FriInstanceInfoT p) (alpha : ZMod p) (precomputed : List (ZMod p))
    (caps : List (List Dg)) (proof : FriProofT p Dg) (s : σ) (n : ℕ)
    (betas : List (ZMod p)) (rp : FriQueryRoundT p Dg) (params : FriParams)
    (D : ℕ)
    (hok : assertNoncanonicalIndicesOk p params.config = Except.ok ())
    (hD : 1 < D)
    (hdeg : params.degree_bits = params.config.cap_height
        + ((rp.initial_trees_proof.evals_proofs.getD 0
            ([], ⟨[]⟩)).2.siblings.length)
        - params.config.rate_bits) :
    queryRoundFinalCheckProp p Dg σ cfg ops chal inst alpha precomputed caps
      proof s n betas rp params D := by
  have hcomb : ∀ sx : ZMod p,
      friCombineInitial D inst rp.initial_trees_proof alpha sx precomputed
        params
      = Except.ok (((inst.batches.zip precomputed).foldl
          (combineBatchStep inst rp.initial_trees_proof sx params)
          (0, ⟨alpha, 0⟩)).1) := by
    intro sx
    unfold friCombineInitial
    rw [if_neg (not_not_intro hD), if_neg (not_not_intro hdeg)]
  unfold queryRoundFinalCheckProp friVerifierQueryRound
  rcases hx : chal.getChallenge s with ⟨xi, s1⟩
  rw [hok]
  dsimp only
  rw [hcomb]
  dsimp only
  refine ⟨?_, (queryLoop_state cfg ops _ betas rp.steps
      proof.commit_phase_merkle_caps params.reduction_arity_bits 0 _ _ _).1,
    (queryLoop_state cfg ops _ betas rp.steps proof.commit_phase_merkle_caps
      params.reduction_arity_bits 0 _ _ _).2⟩
  rw [(queryLoop_state cfg ops _ betas rp.steps proof.commit_phase_merkle_caps
    params.reduction_arity_bits 0 _ _ _).1]

/-- Witness for C1 at concrete Goldilocks-order inputs (where the
non-canonical-index assertion passes, `D = 2`, and the proof shape matches
the parameters). -/
theorem fri_verifier_query_round_final_check_witness :
    (assertNoncanonicalIndicesOk P gParams.config = Except.ok ()
      ∧ (1 : ℕ) < 2
      ∧ gParams.degree_bits = gParams.config.cap_height
          + ((gRound.initial_trees_proof.evals_proofs.getD 0
              ([], ⟨[]⟩)).2.siblings.length)
          - gParams.config.rate_bits)
    ∧ queryRoundFinalCheckProp P ℕ ℕ cCfg gOps gChal gInst 4 [6] [[10]]
        gProof 0 32 [13] gRound gParams 2 :=
  ⟨⟨by rw [assertNoncanonicalIndicesOk, if_pos] ; norm_num [FriConfig.rate, gParams, P],
    by decide, by rfl⟩,
   fri_verifier_query_round_final_check P ℕ ℕ cCfg gOps gChal gInst 4 [6]
     [[10]] gProof 0 32 [13] gRound gParams 2
     (by rw [assertNoncanonicalIndicesOk, if_pos] ; norm_num [FriConfig.rate, gParams, P])
     (by decide) (by rfl)⟩

end FriRec
